import Mathlib

/-
Verification of the sliding-window feature extraction (misc/imgreader.py) and
the YOLO-style box decoding and loss computation (textdect/yolonet.py) of the
DmsMsgRcg repository.

The image side is embedded over functional grids with natural-number
dimensions and integer pixel intensities; window coordinates are integers
because padding can shift them below zero.  The network side is embedded over
the real numbers, with the sigmoid written exactly as in the source.
-/

namespace DmsMsgRcg

/-- A grayscale image: a grid of scalar intensities with explicit dimensions,
mirroring the 2-dimensional numpy array img_arr of misc/imgreader.py.
Row index first, column index second. -/
structure Image where
  height : Nat
  width : Nat
  pix : Nat → Nat → Int

/-- The zero-filled grid allocated by np.zeros((new_y, new_x)). -/
def Image.zeros (h w : Nat) : Image :=
  { height := h, width := w, pix := fun _ _ => 0 }

/-- The slice assignment dst[top:top+src.height, left:left+src.width] = src
used to place the original image inside the padded buffer. -/
def Image.writeRegion (dst : Image) (top left : Nat) (src : Image) : Image :=
  { dst with
    pix := fun i j =>
      if top ≤ i ∧ i < top + src.height ∧ left ≤ j ∧ j < left + src.width then
        src.pix (i - top) (j - left)
      else dst.pix i j }

/-- The ImgReader object of misc/imgreader.py: the feature window dimensions
are fixed at construction. -/
structure ImgReader where
  feature_height : Nat
  feature_width : Nat

/-- Python range(0, stop, stride) as a list of naturals. -/
def pyRange (stop stride : Nat) : List Nat :=
  (List.range ((stop + stride - 1) / stride)).map (· * stride)

/-- Row-major flattening of the window img_arr[y:y+fh, x:x+fw], i.e. the
reshape(-1) of the sliding-window slice. -/
def windowFeature (img : Image) (fh fw y x : Nat) : List Int :=
  (List.range fh).flatMap fun i => (List.range fw).map fun j => img.pix (y + i) (x + j)

/-- The double sliding-window loop of get_image_array_features: for each
stride-aligned y and x it appends the coordinate (y - top, x - left) to the
coordinates list and the flattened window to the features list. -/
def tileLoop (img : Image) (fh fw stride top left : Nat) :
    List (Int × Int) × List (List Int) :=
  (pyRange (img.height - fh + 1) stride).foldl
    (fun acc (y : Nat) =>
      (pyRange (img.width - fw + 1) stride).foldl
        (fun acc2 (x : Nat) =>
          (acc2.1 ++ [((y : Int) - (top : Int), (x : Int) - (left : Int))],
           acc2.2 ++ [windowFeature img fh fw y x]))
        acc)
    ([], [])

/-- The per-axis padding amount computed in the padding branch of
get_image_array_features. -/
def paddingAmount (imageDim featureDim stride : Nat) : Nat :=
  if featureDim < imageDim then
    if 0 < (imageDim - featureDim) % stride then
      stride - (imageDim - featureDim) % stride
    else 0
  else if imageDim < featureDim then
    featureDim - imageDim
  else 0

/-- The padded image: a zero-filled buffer of the enlarged size holding the
original image at offset (floor(padY/2), floor(padX/2)). -/
def padImage (img : Image) (padY padX : Nat) : Image :=
  (Image.zeros (img.height + padY) (img.width + padX)).writeRegion
    (padY / 2) (padX / 2) img

/-- ImgReader.get_image_array_features of misc/imgreader.py: forces padding
off when stride exceeds 5, returns empty lists for too-small images, pads
when requested and needed, and runs the sliding-window loop. -/
def get_image_array_features (r : ImgReader) (img : Image) (stride : Nat)
    (padding : Bool) : List (Int × Int) × List (List Int) :=
  let padding : Bool := if 5 < stride then false else padding
  if padding = false then
    if img.height < r.feature_height ∨ img.width < r.feature_width then ([], [])
    else tileLoop img r.feature_height r.feature_width stride 0 0
  else
    if img.height + 4 < r.feature_height ∨ img.width + 4 < r.feature_width then ([], [])
    else
      let padY := paddingAmount img.height r.feature_height stride
      let padX := paddingAmount img.width r.feature_width stride
      if 0 < padY ∨ 0 < padX then
        tileLoop (padImage img padY padX) r.feature_height r.feature_width stride
          (padY / 2) (padX / 2)
      else
        tileLoop img r.feature_height r.feature_width stride 0 0

/-! A small store of numpy arrays, to express that get_image_array_features
never mutates its input array: np.zeros allocates a fresh array and the slice
assignment writes only into that fresh array. -/

/-- Reading an array from the store by identifier (its allocation index). -/
def Store.read (σ : List Image) (a : Nat) : Image :=
  σ.getD a (Image.zeros 0 0)

/-- The store after the padding allocation: np.zeros appends a fresh array of
the enlarged size, and the slice assignment writes the input array into the
middle of that fresh array. -/
def padStore (σ : List Image) (a padY padX : Nat) : List Image :=
  let img := Store.read σ a
  let σ1 := σ ++ [Image.zeros (img.height + padY) (img.width + padX)]
  σ1.set σ.length
    ((Store.read σ1 σ.length).writeRegion (padY / 2) (padX / 2) (Store.read σ1 a))

/-- get_image_array_features run against a store of arrays: the input is the
array with identifier a; the padding branch allocates a fresh zero array at
the end of the store and copies the input into it by slice assignment, and
window extraction reads from that working array. -/
def get_image_array_features_st (r : ImgReader) (σ : List Image) (a : Nat)
    (stride : Nat) (padding : Bool) :
    List Image × (List (Int × Int) × List (List Int)) :=
  let padding : Bool := if 5 < stride then false else padding
  let img := Store.read σ a
  if padding = false then
    if img.height < r.feature_height ∨ img.width < r.feature_width then (σ, ([], []))
    else (σ, tileLoop img r.feature_height r.feature_width stride 0 0)
  else
    if img.height + 4 < r.feature_height ∨ img.width + 4 < r.feature_width then (σ, ([], []))
    else
      let padY := paddingAmount img.height r.feature_height stride
      let padX := paddingAmount img.width r.feature_width stride
      if 0 < padY ∨ 0 < padX then
        (padStore σ a padY padX,
         tileLoop (Store.read (padStore σ a padY padX) σ.length)
           r.feature_height r.feature_width stride (padY / 2) (padX / 2))
      else (σ, tileLoop img r.feature_height r.feature_width stride 0 0)

/-! The detection side: textdect/yolonet.py embedded over the real numbers. -/

/-- YoloNet.sigmoid. -/
noncomputable def sigmoid (x : ℝ) : ℝ := 1 / (1 + Real.exp (-x))

/-- The configuration fields of textdect/yolonet.py that the decoding uses,
together with the rest of the documented detection configuration. -/
structure DetectConfig where
  image_height : Nat
  image_width : Nat
  grid_y_count : Nat
  grid_x_count : Nat
  grid_y_size : ℝ
  grid_x_size : ℝ
  image_left_skip : ℝ
  image_right_skip : ℝ
  debug : Bool

/-- BoundBox of textdect/yolonet.py. -/
structure BoundBox where
  cx : ℝ
  cy : ℝ
  w : ℝ
  h : ℝ

/-- YoloNet._decode_netout: the netout tensor has spatial shape gh x gw and
at least 5 channels; the loop appends a diagnostic record when debugging with
confidence above 0.1, and appends a bounding box when confidence is above
0.5.  The first component models the debug printing, the second the returned
boxes list. -/
noncomputable def decode_netout (cfg : DetectConfig) (gh gw : Nat)
    (netout : Nat → Nat → Fin 5 → ℝ) :
    List (ℝ × ℝ × ℝ × ℝ × ℝ) × List BoundBox :=
  (List.range gh).foldl
    (fun acc (row : Nat) =>
      (List.range gw).foldl
        (fun acc2 (col : Nat) =>
          (acc2.1 ++
            (if cfg.debug = true ∧ sigmoid (netout row col 4) > 0.1 then
              [(((col : ℝ) + sigmoid (netout row col 0)) * cfg.grid_x_size +
                  cfg.image_left_skip,
                ((row : ℝ) + sigmoid (netout row col 1)) * cfg.grid_y_size,
                netout row col 2 * cfg.grid_x_size,
                netout row col 3 * cfg.grid_y_size,
                sigmoid (netout row col 4))]
            else []),
           acc2.2 ++
            (if sigmoid (netout row col 4) > 0.5 then
              [BoundBox.mk
                (((col : ℝ) + sigmoid (netout row col 0)) * cfg.grid_x_size +
                  cfg.image_left_skip)
                (((row : ℝ) + sigmoid (netout row col 1)) * cfg.grid_y_size)
                (netout row col 2 * cfg.grid_x_size)
                (netout row col 3 * cfg.grid_y_size)]
            else [])))
        acc)
    ([], [])

/-- YoloNet.custom_loss: the tensors are flattened to a list of cells (over
batch and grid positions), each holding 5 channels.  Predicted center and
confidence channels pass through sigmoid, predicted width and height are
used raw; the ground-truth confidence channel is the mask for position and
size terms; the confidence term is unmasked and scaled by 1.2. -/
noncomputable def custom_loss (y_true y_pred : List (Fin 5 → ℝ)) : ℝ :=
  ((y_true.zip y_pred).map fun p =>
      ((p.1 0 - sigmoid (p.2 0)) ^ 2 + (p.1 1 - sigmoid (p.2 1)) ^ 2) * p.1 4).sum * 1.0 +
  ((y_true.zip y_pred).map fun p =>
      ((p.1 2 - p.2 2) ^ 2 + (p.1 3 - p.2 3) ^ 2) * p.1 4).sum * 1.0 +
  ((y_true.zip y_pred).map fun p => (p.1 4 - sigmoid (p.2 4)) ^ 2).sum * 1.2

/-- The Python int() conversion applied to a real value: truncation toward
zero. -/
noncomputable def pyInt (r : ℝ) : ℤ := if 0 ≤ r then ⌊r⌋ else ⌈r⌉

/-- BoundBox.get_coordinates of textdect/yolonet.py. -/
noncomputable def BoundBox.get_coordinates (b : BoundBox) : ℤ × ℤ × ℤ × ℤ :=
  (pyInt (b.cx - b.w / 2), pyInt (b.cy - b.h / 2),
   pyInt (b.cx + b.w / 2), pyInt (b.cy + b.h / 2))

/-! Concrete sample inputs used by the witnesses. -/

/-- A 2 x 2 feature-window reader. -/
def sampleReader : ImgReader := ⟨2, 2⟩

/-- A 4 x 4 feature-window reader. -/
def sampleReader4 : ImgReader := ⟨4, 4⟩

/-- A concrete 3 x 3 image with distinct pixel values. -/
def sampleImg : Image := ⟨3, 3, fun i j => ((3 * i + j : Nat) : Int)⟩

/-- A concrete 5 x 5 image with distinct pixel values. -/
def sampleImg5 : Image := ⟨5, 5, fun i j => ((5 * i + j : Nat) : Int)⟩

/-- A sample detection configuration. -/
noncomputable def sampleConfig : DetectConfig :=
  ⟨144, 768, 9, 48, 16, 16, 100, 50, false⟩

/-- The all-zero cell of a grid tensor. -/
def zeroCell : Fin 5 → ℝ := fun _ => 0

/-- The all-one cell of a grid tensor. -/
def oneCell : Fin 5 → ℝ := fun _ => 1

/-! Basic characterizations of the sliding-window loop. -/

/-- A fold that appends to both components of a pair accumulates the
concatenation of the per-element contributions. -/
theorem foldl_push2 {α β γ : Type} (u : α → List β) (v : α → List γ) :
    ∀ (l : List α) (acc : List β × List γ),
      l.foldl (fun a x => (a.1 ++ u x, a.2 ++ v x)) acc =
        (acc.1 ++ l.flatMap u, acc.2 ++ l.flatMap v) := by
  intro l
  induction l with
  | nil => intro acc; simp
  | cons hd tl ih =>
    intro acc
    simp only [List.foldl_cons, ih, List.flatMap_cons, List.append_assoc]

/-- flatMap of singletons is map. -/
theorem flatMap_single {α β : Type} (f : α → β) :
    ∀ l : List α, (l.flatMap fun x => [f x]) = l.map f := by
  intro l
  induction l with
  | nil => rfl
  | cons a t ih => simp [List.flatMap_cons, ih]

/-- The sliding-window loop produces exactly the row-major list of coordinates
and the row-major list of flattened windows. -/
theorem tileLoop_eq (img : Image) (fh fw stride top left : Nat) :
    tileLoop img fh fw stride top left =
      ((pyRange (img.height - fh + 1) stride).flatMap fun (y : Nat) =>
         (pyRange (img.width - fw + 1) stride).map fun (x : Nat) =>
           ((y : Int) - (top : Int), (x : Int) - (left : Int)),
       (pyRange (img.height - fh + 1) stride).flatMap fun (y : Nat) =>
         (pyRange (img.width - fw + 1) stride).map fun (x : Nat) =>
           windowFeature img fh fw y x) := by
  unfold tileLoop
  have hstep :
      (fun (acc : List (Int × Int) × List (List Int)) (y : Nat) =>
        (pyRange (img.width - fw + 1) stride).foldl
          (fun acc2 (x : Nat) =>
            (acc2.1 ++ [((y : Int) - (top : Int), (x : Int) - (left : Int))],
             acc2.2 ++ [windowFeature img fh fw y x]))
          acc) =
      (fun (acc : List (Int × Int) × List (List Int)) (y : Nat) =>
        (acc.1 ++ ((pyRange (img.width - fw + 1) stride).map fun (x : Nat) =>
            ((y : Int) - (top : Int), (x : Int) - (left : Int))),
         acc.2 ++ ((pyRange (img.width - fw + 1) stride).map fun (x : Nat) =>
            windowFeature img fh fw y x))) := by
    funext acc y
    rw [foldl_push2 (fun (x : Nat) => [((y : Int) - (top : Int), (x : Int) - (left : Int))])
        (fun (x : Nat) => [windowFeature img fh fw y x])]
    rw [flatMap_single, flatMap_single]
  rw [hstep, foldl_push2]
  simp

/-- Length of a Python range. -/
theorem pyRange_length (stop stride : Nat) :
    (pyRange stop stride).length = (stop + stride - 1) / stride := by
  simp [pyRange]

/-- For a positive stride, range(0, m+1, stride) has floor(m/stride)+1
elements. -/
theorem pyRange_length_succ (m stride : Nat) (hs : 0 < stride) :
    (pyRange (m + 1) stride).length = m / stride + 1 := by
  rw [pyRange_length]
  have h1 : m + 1 + stride - 1 = m + stride := by omega
  rw [h1, Nat.add_div_right m hs]

/-- The flatMap of per-row maps over a fixed column list has the product
length. -/
theorem length_flatMap_map {α β γ : Type} (ys : List α) (xs : List β) (f : α → β → γ) :
    (ys.flatMap fun y => xs.map (f y)).length = ys.length * xs.length := by
  induction ys with
  | nil => simp
  | cons hd tl ih =>
    simp only [List.flatMap_cons, List.length_append, List.length_map, ih,
      List.length_cons]
    ring

/-- Zipping two structurally parallel row-major lists pairs them pointwise. -/
theorem zip_flatMap_map {α β γ δ : Type} (ys : List α) (xs : List β)
    (f : α → β → γ) (g : α → β → δ) :
    ((ys.flatMap fun y => xs.map (f y)).zip (ys.flatMap fun y => xs.map (g y))) =
      ys.flatMap fun y => xs.map fun x => (f y x, g y x) := by
  induction ys with
  | nil => simp
  | cons hd tl ih =>
    simp only [List.flatMap_cons]
    rw [List.zip_append (by simp), ih, List.zip_map' (f hd) (g hd) xs]

/-- Claim C1: with padding disabled and the image at least as large as the
feature window in both axes, the Tiler emits exactly
(floor((h-fh)/stride)+1) * (floor((w-fw)/stride)+1) windows, and each feature
vector paired with coordinate (y, x) is the row-major flattening of the source
slice img[y:y+fh, x:x+fw]. -/
theorem C1_no_padding_count_and_content (r : ImgReader) (img : Image) (stride : Nat)
    (hs : 1 ≤ stride) (hh : r.feature_height ≤ img.height)
    (hw : r.feature_width ≤ img.width) :
    (get_image_array_features r img stride false).1.length =
        ((img.height - r.feature_height) / stride + 1) *
          ((img.width - r.feature_width) / stride + 1) ∧
    (get_image_array_features r img stride false).2.length =
        ((img.height - r.feature_height) / stride + 1) *
          ((img.width - r.feature_width) / stride + 1) ∧
    ∀ p ∈ (get_image_array_features r img stride false).1.zip
        (get_image_array_features r img stride false).2,
      p.2 = windowFeature img r.feature_height r.feature_width
        p.1.1.toNat p.1.2.toNat := by
  have hres : get_image_array_features r img stride false =
      tileLoop img r.feature_height r.feature_width stride 0 0 := by
    unfold get_image_array_features
    simp only [ite_self, if_true]
    rw [if_neg (by omega)]
  rw [hres, tileLoop_eq]
  refine ⟨?_, ?_, ?_⟩
  · rw [length_flatMap_map, pyRange_length_succ _ _ hs, pyRange_length_succ _ _ hs]
  · rw [length_flatMap_map, pyRange_length_succ _ _ hs, pyRange_length_succ _ _ hs]
  · intro p hp
    rw [zip_flatMap_map] at hp
    simp only [List.mem_flatMap, List.mem_map] at hp
    obtain ⟨y, _, x, _, rfl⟩ := hp
    simp

/-- Witness for C1 on a concrete 3 x 3 image with a 2 x 2 window. -/
theorem C1_witness :
    (1 ≤ 1 ∧ sampleReader.feature_height ≤ sampleImg.height ∧
      sampleReader.feature_width ≤ sampleImg.width) ∧
    ((get_image_array_features sampleReader sampleImg 1 false).1.length =
        ((sampleImg.height - sampleReader.feature_height) / 1 + 1) *
          ((sampleImg.width - sampleReader.feature_width) / 1 + 1) ∧
      (get_image_array_features sampleReader sampleImg 1 false).2.length =
        ((sampleImg.height - sampleReader.feature_height) / 1 + 1) *
          ((sampleImg.width - sampleReader.feature_width) / 1 + 1) ∧
      ∀ p ∈ (get_image_array_features sampleReader sampleImg 1 false).1.zip
          (get_image_array_features sampleReader sampleImg 1 false).2,
        p.2 = windowFeature sampleImg sampleReader.feature_height
          sampleReader.feature_width p.1.1.toNat p.1.2.toNat) :=
  ⟨⟨by decide, by decide, by decide⟩,
   C1_no_padding_count_and_content sampleReader sampleImg 1 (by decide) (by decide)
     (by decide)⟩

/-- The two components of the sliding-window loop have equal lengths. -/
theorem tileLoop_length_eq (img : Image) (fh fw stride top left : Nat) :
    (tileLoop img fh fw stride top left).1.length =
      (tileLoop img fh fw stride top left).2.length := by
  rw [tileLoop_eq, length_flatMap_map, length_flatMap_map]

/-- When the image fits the window and the stride is positive, the
sliding-window loop emits at least one window. -/
theorem tileLoop_ne_nil (img : Image) (fh fw stride top left : Nat)
    (hs : 0 < stride) (_hh : fh ≤ img.height) (_hw : fw ≤ img.width) :
    (tileLoop img fh fw stride top left).1 ≠ [] ∧
      (tileLoop img fh fw stride top left).2 ≠ [] := by
  rw [tileLoop_eq]
  constructor <;>
  · refine List.length_pos.mp ?_
    rw [length_flatMap_map, pyRange_length_succ _ _ hs, pyRange_length_succ _ _ hs]
    positivity

/-- The feature dimension never exceeds the padded image dimension. -/
theorem feature_le_add_padding (d f s : Nat) : f ≤ d + paddingAmount d f s := by
  unfold paddingAmount
  split_ifs with h1 h2 h3
  · exact le_trans (Nat.le_of_lt h1) (Nat.le_add_right _ _)
  · exact le_trans (Nat.le_of_lt h1) (Nat.le_add_right _ _)
  · omega
  · omega

/-- The padded image has the enlarged dimensions. -/
theorem padImage_height (img : Image) (padY padX : Nat) :
    (padImage img padY padX).height = img.height + padY := rfl

/-- The padded image has the enlarged dimensions. -/
theorem padImage_width (img : Image) (padY padX : Nat) :
    (padImage img padY padX).width = img.width + padX := rfl

/-- With padding disabled, get_image_array_features is the too-small guard
followed by the unshifted sliding-window loop. -/
theorem get_nopad_eq (r : ImgReader) (img : Image) (stride : Nat) :
    get_image_array_features r img stride false =
      if img.height < r.feature_height ∨ img.width < r.feature_width then ([], [])
      else tileLoop img r.feature_height r.feature_width stride 0 0 := by
  unfold get_image_array_features
  simp only [ite_self, if_true]

/-- A stride above 5 forces the padding flag off. -/
theorem get_forced_nopad (r : ImgReader) (img : Image) (stride : Nat)
    (padding : Bool) (hs : 5 < stride) :
    get_image_array_features r img stride padding =
      get_image_array_features r img stride false := by
  unfold get_image_array_features
  rw [if_pos hs, if_pos hs]

/-- With padding enabled and stride at most 5, get_image_array_features is the
4-pixel-tolerance guard followed by the padding computation and the shifted
sliding-window loop. -/
theorem get_pad_eq (r : ImgReader) (img : Image) (stride : Nat) (hs5 : stride ≤ 5) :
    get_image_array_features r img stride true =
      if img.height + 4 < r.feature_height ∨ img.width + 4 < r.feature_width then
        ([], [])
      else
        if 0 < paddingAmount img.height r.feature_height stride ∨
            0 < paddingAmount img.width r.feature_width stride then
          tileLoop
            (padImage img (paddingAmount img.height r.feature_height stride)
              (paddingAmount img.width r.feature_width stride))
            r.feature_height r.feature_width stride
            (paddingAmount img.height r.feature_height stride / 2)
            (paddingAmount img.width r.feature_width stride / 2)
        else tileLoop img r.feature_height r.feature_width stride 0 0 := by
  unfold get_image_array_features
  rw [if_neg (show ¬ 5 < stride by omega),
    if_neg (show ¬ (true : Bool) = false by simp)]

/-- Claim C5: for strides above 5 the padding flag has no effect; in
particular stride 6 with padding requested behaves as stride 6 without. -/
theorem C5_stride_gt5_padding_ignored (r : ImgReader) (img : Image) (stride : Nat)
    (padding : Bool) (hs : 5 < stride) :
    get_image_array_features r img stride padding =
      get_image_array_features r img stride false :=
  get_forced_nopad r img stride padding hs

/-- Witness for C5 at stride 6 on a concrete image. -/
theorem C5_witness :
    5 < 6 ∧
    get_image_array_features sampleReader sampleImg 6 true =
      get_image_array_features sampleReader sampleImg 6 false :=
  ⟨by decide, C5_stride_gt5_padding_ignored sampleReader sampleImg 6 true (by decide)⟩

/-- Claim C6: without padding the result is the empty pair exactly when the
image is smaller than the feature window in some axis; with padding (stride
at most 5) exactly when it is more than 4 pixels smaller in some axis. -/
theorem C6_too_small_empty_iff (r : ImgReader) (img : Image) (stride : Nat)
    (hs : 1 ≤ stride) :
    (get_image_array_features r img stride false = ([], []) ↔
      img.height < r.feature_height ∨ img.width < r.feature_width) ∧
    (stride ≤ 5 →
      (get_image_array_features r img stride true = ([], []) ↔
        img.height + 4 < r.feature_height ∨ img.width + 4 < r.feature_width)) := by
  constructor
  · rw [get_nopad_eq]
    by_cases hsmall : img.height < r.feature_height ∨ img.width < r.feature_width
    · rw [if_pos hsmall]
      exact ⟨fun _ => hsmall, fun _ => rfl⟩
    · rw [if_neg hsmall]
      constructor
      · intro heq
        have hne := (tileLoop_ne_nil img r.feature_height r.feature_width stride 0 0
          hs (by omega) (by omega)).1
        rw [heq] at hne
        exact absurd rfl hne
      · intro h
        exact absurd h hsmall
  · intro hs5
    rw [get_pad_eq r img stride hs5]
    by_cases hsmall : img.height + 4 < r.feature_height ∨ img.width + 4 < r.feature_width
    · rw [if_pos hsmall]
      exact ⟨fun _ => hsmall, fun _ => rfl⟩
    · rw [if_neg hsmall]
      constructor
      · intro heq
        by_cases hpad : 0 < paddingAmount img.height r.feature_height stride ∨
            0 < paddingAmount img.width r.feature_width stride
        · rw [if_pos hpad] at heq
          have hne := (tileLoop_ne_nil
            (padImage img (paddingAmount img.height r.feature_height stride)
              (paddingAmount img.width r.feature_width stride))
            r.feature_height r.feature_width stride
            (paddingAmount img.height r.feature_height stride / 2)
            (paddingAmount img.width r.feature_width stride / 2) hs
            (by rw [padImage_height]; exact feature_le_add_padding _ _ _)
            (by rw [padImage_width]; exact feature_le_add_padding _ _ _)).1
          rw [heq] at hne
          exact absurd rfl hne
        · rw [if_neg hpad] at heq
          have hY := feature_le_add_padding img.height r.feature_height stride
          have hX := feature_le_add_padding img.width r.feature_width stride
          have hne := (tileLoop_ne_nil img r.feature_height r.feature_width stride 0 0
            hs (by omega) (by omega)).1
          rw [heq] at hne
          exact absurd rfl hne
      · intro h
        exact absurd h hsmall

/-- Witness for C6 on a concrete 3 x 3 image with a 2 x 2 window. -/
theorem C6_witness :
    1 ≤ 1 ∧
    ((get_image_array_features sampleReader sampleImg 1 false = ([], []) ↔
        sampleImg.height < sampleReader.feature_height ∨
          sampleImg.width < sampleReader.feature_width) ∧
      (1 ≤ 5 →
        (get_image_array_features sampleReader sampleImg 1 true = ([], []) ↔
          sampleImg.height + 4 < sampleReader.feature_height ∨
            sampleImg.width + 4 < sampleReader.feature_width))) :=
  ⟨by decide, C6_too_small_empty_iff sampleReader sampleImg 1 (by decide)⟩

/-- Reading below the end of the store is unaffected by allocating a new
array at the end. -/
theorem read_append_lt (σ : List Image) (x : Image) (j : Nat) (hj : j < σ.length) :
    Store.read (σ ++ [x]) j = Store.read σ j := by
  simp [Store.read, List.getD, List.getElem?_append_left hj]

/-- Reading the newly allocated array at the end of the store. -/
theorem read_append_self (σ : List Image) (x : Image) :
    Store.read (σ ++ [x]) σ.length = x := by
  simp [Store.read, List.getD]

/-- Writing to one array leaves every other array unchanged. -/
theorem read_set_ne (σ : List Image) (k j : Nat) (x : Image) (h : j ≠ k) :
    Store.read (σ.set k x) j = Store.read σ j := by
  simp [Store.read, List.getD, List.getElem?_set_ne (Ne.symm h)]

/-- Reading back a written array. -/
theorem read_set_self (σ : List Image) (k : Nat) (x : Image) (hk : k < σ.length) :
    Store.read (σ.set k x) k = x := by
  simp [Store.read, List.getD, List.getElem?_set_self, hk]

/-- Arrays below the end of the store are untouched by the padding
allocation and the slice assignment. -/
theorem padStore_read_lt (σ : List Image) (a padY padX j : Nat) (hj : j < σ.length) :
    Store.read (padStore σ a padY padX) j = Store.read σ j := by
  unfold padStore
  rw [read_set_ne _ _ _ _ (by omega), read_append_lt _ _ _ hj]

/-- The freshly allocated working array is exactly the padded image. -/
theorem padStore_read_self (σ : List Image) (a padY padX : Nat) (ha : a < σ.length) :
    Store.read (padStore σ a padY padX) σ.length =
      padImage (Store.read σ a) padY padX := by
  unfold padStore
  rw [read_set_self _ _ _ (by simp), read_append_self, read_append_lt _ _ _ ha]
  rfl

/-- Without padding the store is returned unchanged and the result is the
pure function of the input array. -/
theorem get_st_nopad_eq (r : ImgReader) (σ : List Image) (a stride : Nat) :
    get_image_array_features_st r σ a stride false =
      (σ, get_image_array_features r (Store.read σ a) stride false) := by
  unfold get_image_array_features_st
  rw [get_nopad_eq]
  simp only [ite_self, if_true]
  by_cases hsmall : (Store.read σ a).height < r.feature_height ∨
      (Store.read σ a).width < r.feature_width
  · rw [if_pos hsmall, if_pos hsmall]
  · rw [if_neg hsmall, if_neg hsmall]

/-- A stride above 5 forces the padding flag off in the store-level run. -/
theorem get_st_forced_nopad (r : ImgReader) (σ : List Image) (a stride : Nat)
    (padding : Bool) (hs : 5 < stride) :
    get_image_array_features_st r σ a stride padding =
      get_image_array_features_st r σ a stride false := by
  unfold get_image_array_features_st
  rw [if_pos hs, if_pos hs]

/-- The padding-mode store-level run, with the guard and branches exposed. -/
theorem get_st_pad_eq (r : ImgReader) (σ : List Image) (a stride : Nat)
    (hs5 : stride ≤ 5) :
    get_image_array_features_st r σ a stride true =
      if (Store.read σ a).height + 4 < r.feature_height ∨
          (Store.read σ a).width + 4 < r.feature_width then (σ, ([], []))
      else
        if 0 < paddingAmount (Store.read σ a).height r.feature_height stride ∨
            0 < paddingAmount (Store.read σ a).width r.feature_width stride then
          (padStore σ a (paddingAmount (Store.read σ a).height r.feature_height stride)
            (paddingAmount (Store.read σ a).width r.feature_width stride),
           tileLoop
             (Store.read
               (padStore σ a
                 (paddingAmount (Store.read σ a).height r.feature_height stride)
                 (paddingAmount (Store.read σ a).width r.feature_width stride))
               σ.length)
             r.feature_height r.feature_width stride
             (paddingAmount (Store.read σ a).height r.feature_height stride / 2)
             (paddingAmount (Store.read σ a).width r.feature_width stride / 2))
        else (σ, tileLoop (Store.read σ a) r.feature_height r.feature_width stride 0 0) := by
  unfold get_image_array_features_st
  rw [if_neg (show ¬ 5 < stride by omega),
    if_neg (show ¬ (true : Bool) = false by simp)]

/-- Claim C9: running get_image_array_features against a store of arrays
leaves every pre-existing array (in particular the input image) unchanged:
padding allocates a fresh zero grid and copies the original into it, and
window extraction reads only from the working grid, so the run computes
exactly the pure function of the input array. -/
theorem C9_input_array_unchanged (r : ImgReader) (σ : List Image) (a stride : Nat)
    (padding : Bool) (ha : a < σ.length) :
    (∀ j, j < σ.length →
      Store.read (get_image_array_features_st r σ a stride padding).1 j =
        Store.read σ j) ∧
    (get_image_array_features_st r σ a stride padding).2 =
      get_image_array_features r (Store.read σ a) stride padding := by
  by_cases h6 : 5 < stride
  · rw [get_st_forced_nopad r σ a stride padding h6, get_st_nopad_eq,
      get_forced_nopad r (Store.read σ a) stride padding h6]
    exact ⟨fun j hj => rfl, rfl⟩
  · cases padding with
    | false =>
      rw [get_st_nopad_eq]
      exact ⟨fun j hj => rfl, rfl⟩
    | true =>
      rw [get_st_pad_eq r σ a stride (by omega), get_pad_eq r _ stride (by omega)]
      by_cases hsmall : (Store.read σ a).height + 4 < r.feature_height ∨
          (Store.read σ a).width + 4 < r.feature_width
      · rw [if_pos hsmall, if_pos hsmall]
        exact ⟨fun j hj => rfl, rfl⟩
      · rw [if_neg hsmall, if_neg hsmall]
        by_cases hpad :
            0 < paddingAmount (Store.read σ a).height r.feature_height stride ∨
              0 < paddingAmount (Store.read σ a).width r.feature_width stride
        · rw [if_pos hpad, if_pos hpad]
          refine ⟨?_, ?_⟩
          · intro j hj
            exact padStore_read_lt σ a _ _ j hj
          · rw [padStore_read_self σ a _ _ ha]
        · rw [if_neg hpad, if_neg hpad]
          exact ⟨fun j hj => rfl, rfl⟩

/-- Witness for C9 on a one-array store whose image triggers the padding
allocation. -/
theorem C9_witness :
    0 < [sampleImg5].length ∧
    ((∀ j, j < [sampleImg5].length →
      Store.read (get_image_array_features_st sampleReader4 [sampleImg5] 0 2 true).1 j =
        Store.read [sampleImg5] j) ∧
    (get_image_array_features_st sampleReader4 [sampleImg5] 0 2 true).2 =
      get_image_array_features sampleReader4 (Store.read [sampleImg5] 0) 2 true) :=
  ⟨by decide, C9_input_array_unchanged sampleReader4 [sampleImg5] 0 2 true (by decide)⟩

/-- The padding amount of the source agrees with the single modular formula
(stride - ((image_dim - feature_dim) mod stride)) mod stride on the
larger-than-feature side. -/
theorem paddingAmount_mod_form (d f s : Nat) (hs : 0 < s) :
    paddingAmount d f s =
      if f < d then (s - (d - f) % s) % s
      else if d < f then f - d
      else 0 := by
  unfold paddingAmount
  by_cases h1 : f < d
  · rw [if_pos h1, if_pos h1]
    by_cases h2 : 0 < (d - f) % s
    · rw [if_pos h2]
      have hlt : (d - f) % s < s := Nat.mod_lt _ hs
      exact (Nat.mod_eq_of_lt (by omega)).symm
    · rw [if_neg h2]
      have h0 : (d - f) % s = 0 := by omega
      rw [h0, Nat.sub_zero, Nat.mod_self]
  · rw [if_neg h1, if_neg h1]

/-- Claim C2: on the accepted padding path the per-axis padding follows the
modular formula, the original image sits at offset floor(pad/2) inside a
zero-filled buffer, and every emitted coordinate is the padded-grid scan
position shifted back by (pad_top, pad_left). -/
theorem C2_padding_amounts_and_layout (r : ImgReader) (img : Image) (stride : Nat)
    (hs : 1 ≤ stride) (hs5 : stride ≤ 5)
    (hh : r.feature_height ≤ img.height + 4) (hw : r.feature_width ≤ img.width + 4) :
    paddingAmount img.height r.feature_height stride =
      (if r.feature_height < img.height then
        (stride - (img.height - r.feature_height) % stride) % stride
      else if img.height < r.feature_height then r.feature_height - img.height
      else 0) ∧
    paddingAmount img.width r.feature_width stride =
      (if r.feature_width < img.width then
        (stride - (img.width - r.feature_width) % stride) % stride
      else if img.width < r.feature_width then r.feature_width - img.width
      else 0) ∧
    ∃ P : Image,
      P.height = img.height + paddingAmount img.height r.feature_height stride ∧
      P.width = img.width + paddingAmount img.width r.feature_width stride ∧
      (∀ i j, i < img.height → j < img.width →
        P.pix (paddingAmount img.height r.feature_height stride / 2 + i)
          (paddingAmount img.width r.feature_width stride / 2 + j) = img.pix i j) ∧
      (∀ i j, i < P.height → j < P.width →
        (i < paddingAmount img.height r.feature_height stride / 2 ∨
         paddingAmount img.height r.feature_height stride / 2 + img.height ≤ i ∨
         j < paddingAmount img.width r.feature_width stride / 2 ∨
         paddingAmount img.width r.feature_width stride / 2 + img.width ≤ j) →
        P.pix i j = 0) ∧
      get_image_array_features r img stride true =
        ((pyRange (P.height - r.feature_height + 1) stride).flatMap fun (y : Nat) =>
           (pyRange (P.width - r.feature_width + 1) stride).map fun (x : Nat) =>
             ((y : Int) -
                ((paddingAmount img.height r.feature_height stride / 2 : Nat) : Int),
              (x : Int) -
                ((paddingAmount img.width r.feature_width stride / 2 : Nat) : Int)),
         (pyRange (P.height - r.feature_height + 1) stride).flatMap fun (y : Nat) =>
           (pyRange (P.width - r.feature_width + 1) stride).map fun (x : Nat) =>
             windowFeature P r.feature_height r.feature_width y x) := by
  refine ⟨paddingAmount_mod_form _ _ _ (by omega),
    paddingAmount_mod_form _ _ _ (by omega), ?_⟩
  by_cases hpad : 0 < paddingAmount img.height r.feature_height stride ∨
      0 < paddingAmount img.width r.feature_width stride
  · refine ⟨padImage img (paddingAmount img.height r.feature_height stride)
        (paddingAmount img.width r.feature_width stride),
      rfl, rfl, ?_, ?_, ?_⟩
    · intro i j hi hj
      show (if paddingAmount img.height r.feature_height stride / 2 ≤
              paddingAmount img.height r.feature_height stride / 2 + i ∧
            paddingAmount img.height r.feature_height stride / 2 + i <
              paddingAmount img.height r.feature_height stride / 2 + img.height ∧
            paddingAmount img.width r.feature_width stride / 2 ≤
              paddingAmount img.width r.feature_width stride / 2 + j ∧
            paddingAmount img.width r.feature_width stride / 2 + j <
              paddingAmount img.width r.feature_width stride / 2 + img.width then
          img.pix
            (paddingAmount img.height r.feature_height stride / 2 + i -
              paddingAmount img.height r.feature_height stride / 2)
            (paddingAmount img.width r.feature_width stride / 2 + j -
              paddingAmount img.width r.feature_width stride / 2)
        else (0 : Int)) = img.pix i j
      rw [if_pos ⟨by omega, by omega, by omega, by omega⟩]
      have e1 : paddingAmount img.height r.feature_height stride / 2 + i -
          paddingAmount img.height r.feature_height stride / 2 = i := by omega
      have e2 : paddingAmount img.width r.feature_width stride / 2 + j -
          paddingAmount img.width r.feature_width stride / 2 = j := by omega
      rw [e1, e2]
    · intro i j hi hj hout
      rw [padImage_height] at hi
      rw [padImage_width] at hj
      show (if paddingAmount img.height r.feature_height stride / 2 ≤ i ∧
            i < paddingAmount img.height r.feature_height stride / 2 + img.height ∧
            paddingAmount img.width r.feature_width stride / 2 ≤ j ∧
            j < paddingAmount img.width r.feature_width stride / 2 + img.width then
          img.pix (i - paddingAmount img.height r.feature_height stride / 2)
            (j - paddingAmount img.width r.feature_width stride / 2)
        else (0 : Int)) = 0
      rcases hout with h | h | h | h <;> rw [if_neg (by omega)]
    · rw [get_pad_eq r img stride hs5, if_neg (by omega), if_pos hpad, tileLoop_eq]
  · have hY0 : paddingAmount img.height r.feature_height stride = 0 := by omega
    have hX0 : paddingAmount img.width r.feature_width stride = 0 := by omega
    refine ⟨img, by omega, by omega, ?_, ?_, ?_⟩
    · intro i j _ _
      rw [hY0, hX0]
      norm_num
    · intro i j hi hj hout
      rw [hY0, hX0] at hout
      rcases hout with h | h | h | h <;> omega
    · rw [get_pad_eq r img stride hs5, if_neg (by omega), if_neg hpad, tileLoop_eq,
        hY0, hX0]

/-- Witness for C2 on a concrete 5 x 5 image with a 4 x 4 window and stride 2,
where both axes get one pixel of padding. -/
theorem C2_witness :
    (1 ≤ 2 ∧ 2 ≤ 5 ∧ sampleReader4.feature_height ≤ sampleImg5.height + 4 ∧
      sampleReader4.feature_width ≤ sampleImg5.width + 4) ∧
    (paddingAmount sampleImg5.height sampleReader4.feature_height 2 =
      (if sampleReader4.feature_height < sampleImg5.height then
        (2 - (sampleImg5.height - sampleReader4.feature_height) % 2) % 2
      else if sampleImg5.height < sampleReader4.feature_height then
        sampleReader4.feature_height - sampleImg5.height
      else 0) ∧
    paddingAmount sampleImg5.width sampleReader4.feature_width 2 =
      (if sampleReader4.feature_width < sampleImg5.width then
        (2 - (sampleImg5.width - sampleReader4.feature_width) % 2) % 2
      else if sampleImg5.width < sampleReader4.feature_width then
        sampleReader4.feature_width - sampleImg5.width
      else 0) ∧
    ∃ P : Image,
      P.height = sampleImg5.height +
        paddingAmount sampleImg5.height sampleReader4.feature_height 2 ∧
      P.width = sampleImg5.width +
        paddingAmount sampleImg5.width sampleReader4.feature_width 2 ∧
      (∀ i j, i < sampleImg5.height → j < sampleImg5.width →
        P.pix (paddingAmount sampleImg5.height sampleReader4.feature_height 2 / 2 + i)
          (paddingAmount sampleImg5.width sampleReader4.feature_width 2 / 2 + j) =
          sampleImg5.pix i j) ∧
      (∀ i j, i < P.height → j < P.width →
        (i < paddingAmount sampleImg5.height sampleReader4.feature_height 2 / 2 ∨
         paddingAmount sampleImg5.height sampleReader4.feature_height 2 / 2 +
           sampleImg5.height ≤ i ∨
         j < paddingAmount sampleImg5.width sampleReader4.feature_width 2 / 2 ∨
         paddingAmount sampleImg5.width sampleReader4.feature_width 2 / 2 +
           sampleImg5.width ≤ j) →
        P.pix i j = 0) ∧
      get_image_array_features sampleReader4 sampleImg5 2 true =
        ((pyRange (P.height - sampleReader4.feature_height + 1) 2).flatMap
           fun (y : Nat) =>
           (pyRange (P.width - sampleReader4.feature_width + 1) 2).map fun (x : Nat) =>
             ((y : Int) -
                ((paddingAmount sampleImg5.height sampleReader4.feature_height 2 / 2 :
                  Nat) : Int),
              (x : Int) -
                ((paddingAmount sampleImg5.width sampleReader4.feature_width 2 / 2 :
                  Nat) : Int)),
         (pyRange (P.height - sampleReader4.feature_height + 1) 2).flatMap
           fun (y : Nat) =>
           (pyRange (P.width - sampleReader4.feature_width + 1) 2).map fun (x : Nat) =>
             windowFeature P sampleReader4.feature_height sampleReader4.feature_width
               y x)) :=
  ⟨⟨by decide, by decide, by decide, by decide⟩,
   C2_padding_amounts_and_layout sampleReader4 sampleImg5 2 (by decide) (by decide)
     (by decide) (by decide)⟩

/-- Claim C10: the coordinates and features lists always have equal lengths,
and whenever the too-small check passes (for the effective padding mode) both
lists are non-empty. -/
theorem C10_parallel_lists_nonempty (r : ImgReader) (img : Image) (stride : Nat)
    (padding : Bool) (hs : 1 ≤ stride) :
    (get_image_array_features r img stride padding).1.length =
      (get_image_array_features r img stride padding).2.length ∧
    ((if 5 < stride ∨ padding = false then
        r.feature_height ≤ img.height ∧ r.feature_width ≤ img.width
      else r.feature_height ≤ img.height + 4 ∧ r.feature_width ≤ img.width + 4) →
      (get_image_array_features r img stride padding).1 ≠ [] ∧
        (get_image_array_features r img stride padding).2 ≠ []) := by
  by_cases heff : 5 < stride ∨ padding = false
  · have hres : get_image_array_features r img stride padding =
        if img.height < r.feature_height ∨ img.width < r.feature_width then ([], [])
        else tileLoop img r.feature_height r.feature_width stride 0 0 := by
      rcases heff with h6 | hfalse
      · rw [get_forced_nopad r img stride padding h6, get_nopad_eq]
      · rw [hfalse, get_nopad_eq]
    rw [hres, if_pos heff]
    by_cases hsmall : img.height < r.feature_height ∨ img.width < r.feature_width
    · rw [if_pos hsmall]
      exact ⟨rfl, fun h => absurd hsmall (by omega)⟩
    · rw [if_neg hsmall]
      exact ⟨tileLoop_length_eq img _ _ stride 0 0,
        fun _ => tileLoop_ne_nil img _ _ stride 0 0 hs (by omega) (by omega)⟩
  · have hstride5 : stride ≤ 5 := by
      rcases Nat.lt_or_ge 5 stride with h | h
      · exact absurd (Or.inl h) heff
      · exact h
    have hpadding : padding = true := by
      rcases padding with _ | _
      · exact absurd (Or.inr rfl) heff
      · rfl
    subst hpadding
    rw [get_pad_eq r img stride hstride5, if_neg heff]
    by_cases hsmall : img.height + 4 < r.feature_height ∨ img.width + 4 < r.feature_width
    · rw [if_pos hsmall]
      exact ⟨rfl, fun h => absurd hsmall (by omega)⟩
    · rw [if_neg hsmall]
      by_cases hpad : 0 < paddingAmount img.height r.feature_height stride ∨
          0 < paddingAmount img.width r.feature_width stride
      · rw [if_pos hpad]
        refine ⟨tileLoop_length_eq _ _ _ stride _ _, fun _ => ?_⟩
        exact tileLoop_ne_nil _ _ _ stride _ _ hs
          (by rw [padImage_height]; exact feature_le_add_padding _ _ _)
          (by rw [padImage_width]; exact feature_le_add_padding _ _ _)
      · rw [if_neg hpad]
        have hY := feature_le_add_padding img.height r.feature_height stride
        have hX := feature_le_add_padding img.width r.feature_width stride
        exact ⟨tileLoop_length_eq img _ _ stride 0 0,
          fun _ => tileLoop_ne_nil img _ _ stride 0 0 hs (by omega) (by omega)⟩

/-- flatMap of conditional singletons is filterMap of conditional options. -/
theorem flatMap_ite_singleton {α β : Type} (p : α → Prop) [DecidablePred p]
    (f : α → β) :
    ∀ l : List α, (l.flatMap fun x => if p x then [f x] else []) =
      l.filterMap fun x => if p x then some (f x) else none := by
  intro l
  induction l with
  | nil => rfl
  | cons a t ih =>
    by_cases h : p a <;> simp [List.flatMap_cons, List.filterMap_cons, h, ih]

/-- The boxes returned by the decoding loop: a row-major traversal of the
grid, keeping exactly the cells whose sigmoid confidence exceeds 0.5 and
mapping them through the documented coordinate formulas. -/
theorem decode_netout_boxes (cfg : DetectConfig) (gh gw : Nat)
    (netout : Nat → Nat → Fin 5 → ℝ) :
    (decode_netout cfg gh gw netout).2 =
      (List.range gh).flatMap fun (row : Nat) =>
        (List.range gw).filterMap fun (col : Nat) =>
          if sigmoid (netout row col 4) > 0.5 then
            some (BoundBox.mk
              (((col : ℝ) + sigmoid (netout row col 0)) * cfg.grid_x_size +
                cfg.image_left_skip)
              (((row : ℝ) + sigmoid (netout row col 1)) * cfg.grid_y_size)
              (netout row col 2 * cfg.grid_x_size)
              (netout row col 3 * cfg.grid_y_size))
          else none := by
  unfold decode_netout
  have hstep :
      (fun (acc : List (ℝ × ℝ × ℝ × ℝ × ℝ) × List BoundBox) (row : Nat) =>
        (List.range gw).foldl
          (fun acc2 (col : Nat) =>
            (acc2.1 ++
              (if cfg.debug = true ∧ sigmoid (netout row col 4) > 0.1 then
                [(((col : ℝ) + sigmoid (netout row col 0)) * cfg.grid_x_size +
                    cfg.image_left_skip,
                  ((row : ℝ) + sigmoid (netout row col 1)) * cfg.grid_y_size,
                  netout row col 2 * cfg.grid_x_size,
                  netout row col 3 * cfg.grid_y_size,
                  sigmoid (netout row col 4))]
              else []),
             acc2.2 ++
              (if sigmoid (netout row col 4) > 0.5 then
                [BoundBox.mk
                  (((col : ℝ) + sigmoid (netout row col 0)) * cfg.grid_x_size +
                    cfg.image_left_skip)
                  (((row : ℝ) + sigmoid (netout row col 1)) * cfg.grid_y_size)
                  (netout row col 2 * cfg.grid_x_size)
                  (netout row col 3 * cfg.grid_y_size)]
              else [])))
          acc) =
      (fun (acc : List (ℝ × ℝ × ℝ × ℝ × ℝ) × List BoundBox) (row : Nat) =>
        (acc.1 ++ ((List.range gw).flatMap fun (col : Nat) =>
          (if cfg.debug = true ∧ sigmoid (netout row col 4) > 0.1 then
            [(((col : ℝ) + sigmoid (netout row col 0)) * cfg.grid_x_size +
                cfg.image_left_skip,
              ((row : ℝ) + sigmoid (netout row col 1)) * cfg.grid_y_size,
              netout row col 2 * cfg.grid_x_size,
              netout row col 3 * cfg.grid_y_size,
              sigmoid (netout row col 4))]
          else [])),
         acc.2 ++ ((List.range gw).flatMap fun (col : Nat) =>
          (if sigmoid (netout row col 4) > 0.5 then
            [BoundBox.mk
              (((col : ℝ) + sigmoid (netout row col 0)) * cfg.grid_x_size +
                cfg.image_left_skip)
              (((row : ℝ) + sigmoid (netout row col 1)) * cfg.grid_y_size)
              (netout row col 2 * cfg.grid_x_size)
              (netout row col 3 * cfg.grid_y_size)]
          else [])))) := by
    funext acc row
    rw [foldl_push2]
  rw [hstep, foldl_push2]
  simp only [List.nil_append]
  have hrow : (fun (row : Nat) => (List.range gw).flatMap fun (col : Nat) =>
      (if sigmoid (netout row col 4) > 0.5 then
        [BoundBox.mk
          (((col : ℝ) + sigmoid (netout row col 0)) * cfg.grid_x_size +
            cfg.image_left_skip)
          (((row : ℝ) + sigmoid (netout row col 1)) * cfg.grid_y_size)
          (netout row col 2 * cfg.grid_x_size)
          (netout row col 3 * cfg.grid_y_size)]
      else [])) =
      (fun (row : Nat) => (List.range gw).filterMap fun (col : Nat) =>
        if sigmoid (netout row col 4) > 0.5 then
          some (BoundBox.mk
            (((col : ℝ) + sigmoid (netout row col 0)) * cfg.grid_x_size +
              cfg.image_left_skip)
            (((row : ℝ) + sigmoid (netout row col 1)) * cfg.grid_y_size)
            (netout row col 2 * cfg.grid_x_size)
            (netout row col 3 * cfg.grid_y_size))
        else none) := by
    funext row
    exact flatMap_ite_singleton _ _ _
  rw [hrow]

/-- Claim C3: for every grid cell the decoder computes the documented center,
size and confidence formulas, emits a box exactly when the sigmoid confidence
exceeds 0.5, and outputs in row-major cell order with no sorting or
suppression. -/
theorem C3_decode_formula_row_major (cfg : DetectConfig) (gh gw : Nat)
    (netout : Nat → Nat → Fin 5 → ℝ) :
    (decode_netout cfg gh gw netout).2 =
      (List.range gh).flatMap fun (row : Nat) =>
        (List.range gw).filterMap fun (col : Nat) =>
          if sigmoid (netout row col 4) > 0.5 then
            some (BoundBox.mk
              (((col : ℝ) + sigmoid (netout row col 0)) * cfg.grid_x_size +
                cfg.image_left_skip)
              (((row : ℝ) + sigmoid (netout row col 1)) * cfg.grid_y_size)
              (netout row col 2 * cfg.grid_x_size)
              (netout row col 3 * cfg.grid_y_size))
          else none :=
  decode_netout_boxes cfg gh gw netout

/-- Claim C8: two configurations that differ only in the debug flag produce
the same list of bounding boxes; the 0.1 threshold only affects the
diagnostic log and the 0.5 emission threshold is fixed. -/
theorem C8_debug_flag_no_effect (cfg : DetectConfig) (d : Bool) (gh gw : Nat)
    (netout : Nat → Nat → Fin 5 → ℝ) :
    (decode_netout { cfg with debug := d } gh gw netout).2 =
      (decode_netout cfg gh gw netout).2 := by
  rw [decode_netout_boxes, decode_netout_boxes]

/-- A masked sum vanishes when every ground-truth cell is all zero. -/
theorem sum_map_mul_mask_zero (g : (Fin 5 → ℝ) × (Fin 5 → ℝ) → ℝ) :
    ∀ (t p : List (Fin 5 → ℝ)), (∀ f ∈ t, ∀ i, f i = 0) →
      (((t.zip p).map fun q => g q * q.1 4)).sum = 0 := by
  intro t
  induction t with
  | nil => intro p _; simp
  | cons a tt ih =>
    intro p hz
    cases p with
    | nil => simp
    | cons b pp =>
      have ha : a 4 = 0 := hz a (by simp) 4
      have ih2 := ih pp (fun f hf i => hz f (by simp [hf]) i)
      simp [ha, ih2]

/-- The unmasked confidence sum over an all-zero ground truth reduces to the
sum of squared sigmoid confidences of the prediction. -/
theorem sum_conf_zip_zero :
    ∀ (t p : List (Fin 5 → ℝ)), t.length = p.length →
      (∀ f ∈ t, ∀ i, f i = 0) →
      ((t.zip p).map fun q => (q.1 4 - sigmoid (q.2 4)) ^ 2).sum =
        (p.map fun f => sigmoid (f 4) ^ 2).sum := by
  intro t
  induction t with
  | nil =>
    intro p hl _
    cases p with
    | nil => simp
    | cons b pp => simp at hl
  | cons a tt ih =>
    intro p hl hz
    cases p with
    | nil => simp at hl
    | cons b pp =>
      have ha : a 4 = 0 := hz a (by simp) 4
      have ih2 := ih pp (by simpa using hl) (fun f hf i => hz f (by simp [hf]) i)
      simp only [List.zip_cons_cons, List.map_cons, List.sum_cons, ha, ih2]
      ring

/-- Distributing a sum of two channel errors against the shared mask. -/
theorem sum_map_add_mul {α : Type} (l : List α) (f g m : α → ℝ) :
    (l.map fun x => (f x + g x) * m x).sum =
      (l.map fun x => f x * m x).sum + (l.map fun x => g x * m x).sum := by
  induction l with
  | nil => simp
  | cons a t ih =>
    simp only [List.map_cons, List.sum_cons, ih]
    ring

/-- Claim C4: for every pair of grid tensors the loss is the masked position
sum plus the masked size sum (each weighted 1.0) plus the unmasked confidence
sum weighted 1.2; in particular, when the ground truth is all zeros the loss
is exactly 1.2 times the sum of squared sigmoid confidences of the
prediction. -/
theorem C4_loss_zero_mask (y_true y_pred : List (Fin 5 → ℝ)) :
    custom_loss y_true y_pred =
      (((y_true.zip y_pred).map fun q => (q.1 0 - sigmoid (q.2 0)) ^ 2 * q.1 4).sum +
        ((y_true.zip y_pred).map fun q => (q.1 1 - sigmoid (q.2 1)) ^ 2 * q.1 4).sum) *
          1.0 +
        (((y_true.zip y_pred).map fun q => (q.1 2 - q.2 2) ^ 2 * q.1 4).sum +
          ((y_true.zip y_pred).map fun q => (q.1 3 - q.2 3) ^ 2 * q.1 4).sum) * 1.0 +
        ((y_true.zip y_pred).map fun q => (q.1 4 - sigmoid (q.2 4)) ^ 2).sum * 1.2 ∧
    (y_true.length = y_pred.length →
      (∀ f ∈ y_true, ∀ i, f i = 0) →
      custom_loss y_true y_pred =
        1.2 * (y_pred.map fun f => sigmoid (f 4) ^ 2).sum) := by
  constructor
  · unfold custom_loss
    rw [sum_map_add_mul ((y_true.zip y_pred))
        (fun q => (q.1 0 - sigmoid (q.2 0)) ^ 2) (fun q => (q.1 1 - sigmoid (q.2 1)) ^ 2)
        (fun q => q.1 4),
      sum_map_add_mul ((y_true.zip y_pred))
        (fun q => (q.1 2 - q.2 2) ^ 2) (fun q => (q.1 3 - q.2 3) ^ 2)
        (fun q => q.1 4)]
  · intro hlen hzero
    unfold custom_loss
    rw [sum_map_mul_mask_zero
        (fun q => (q.1 0 - sigmoid (q.2 0)) ^ 2 + (q.1 1 - sigmoid (q.2 1)) ^ 2)
        y_true y_pred hzero,
      sum_map_mul_mask_zero
        (fun q => (q.1 2 - q.2 2) ^ 2 + (q.1 3 - q.2 3) ^ 2) y_true y_pred hzero,
      sum_conf_zip_zero y_true y_pred hlen hzero]
    ring

/-- Witness for C4 on a one-cell all-zero ground truth against a one-cell
all-one prediction: the general decomposition holds, and the inner zero-mask
hypotheses are discharged for the reduced confidence-only form. -/
theorem C4_witness :
    (custom_loss [zeroCell] [oneCell] =
      ((([zeroCell].zip [oneCell]).map fun q =>
            (q.1 0 - sigmoid (q.2 0)) ^ 2 * q.1 4).sum +
        (([zeroCell].zip [oneCell]).map fun q =>
            (q.1 1 - sigmoid (q.2 1)) ^ 2 * q.1 4).sum) * 1.0 +
        ((([zeroCell].zip [oneCell]).map fun q =>
            (q.1 2 - q.2 2) ^ 2 * q.1 4).sum +
          (([zeroCell].zip [oneCell]).map fun q =>
            (q.1 3 - q.2 3) ^ 2 * q.1 4).sum) * 1.0 +
        (([zeroCell].zip [oneCell]).map fun q =>
            (q.1 4 - sigmoid (q.2 4)) ^ 2).sum * 1.2) ∧
    ([zeroCell].length = [oneCell].length ∧ ∀ f ∈ [zeroCell], ∀ i, f i = 0) ∧
    custom_loss [zeroCell] [oneCell] =
      1.2 * ([oneCell].map fun f => sigmoid (f 4) ^ 2).sum :=
  ⟨(C4_loss_zero_mask [zeroCell] [oneCell]).1,
   ⟨rfl, fun f hf i => by
      rw [List.mem_singleton] at hf
      rw [hf]
      rfl⟩,
   (C4_loss_zero_mask [zeroCell] [oneCell]).2 rfl (fun f hf i => by
      rw [List.mem_singleton] at hf
      rw [hf]
      rfl)⟩

/-- Truncation toward zero, phrased with floors only. -/
theorem pyInt_eq (r : ℝ) : pyInt r = if 0 ≤ r then ⌊r⌋ else -⌊-r⌋ := by
  unfold pyInt
  by_cases h : 0 ≤ r
  · rw [if_pos h, if_pos h]
  · rw [if_neg h, if_neg h, Int.floor_neg, neg_neg]

/-- Claim C7: get_coordinates truncates center plus or minus half size toward
zero in all four components, which differs from flooring: on the box with
center (0,0) and unit size all four coordinates are 0, while the floor of
0 - 1/2 is -1. -/
theorem C7_get_coordinates_truncation :
    (∀ b : BoundBox, b.get_coordinates =
      (if 0 ≤ b.cx - b.w / 2 then ⌊b.cx - b.w / 2⌋ else -⌊-(b.cx - b.w / 2)⌋,
       if 0 ≤ b.cy - b.h / 2 then ⌊b.cy - b.h / 2⌋ else -⌊-(b.cy - b.h / 2)⌋,
       if 0 ≤ b.cx + b.w / 2 then ⌊b.cx + b.w / 2⌋ else -⌊-(b.cx + b.w / 2)⌋,
       if 0 ≤ b.cy + b.h / 2 then ⌊b.cy + b.h / 2⌋ else -⌊-(b.cy + b.h / 2)⌋)) ∧
    (BoundBox.mk 0 0 1 1).get_coordinates = (0, 0, 0, 0) ∧
    ⌊(0 : ℝ) - 1 / 2⌋ = -1 := by
  refine ⟨?_, ?_, ?_⟩
  · intro b
    unfold BoundBox.get_coordinates
    rw [pyInt_eq, pyInt_eq, pyInt_eq, pyInt_eq]
  · unfold BoundBox.get_coordinates pyInt
    norm_num
  · norm_num

/-- Witness for C10 on a concrete 3 x 3 image, padding requested, stride 1. -/
theorem C10_witness :
    1 ≤ 1 ∧
    ((get_image_array_features sampleReader sampleImg 1 true).1.length =
        (get_image_array_features sampleReader sampleImg 1 true).2.length ∧
      ((if 5 < 1 ∨ (true : Bool) = false then
          sampleReader.feature_height ≤ sampleImg.height ∧
            sampleReader.feature_width ≤ sampleImg.width
        else sampleReader.feature_height ≤ sampleImg.height + 4 ∧
            sampleReader.feature_width ≤ sampleImg.width + 4) →
        (get_image_array_features sampleReader sampleImg 1 true).1 ≠ [] ∧
          (get_image_array_features sampleReader sampleImg 1 true).2 ≠ [])) :=
  ⟨by decide, C10_parallel_lists_nonempty sampleReader sampleImg 1 true (by decide)⟩
